import Mathlib

/-!
Verification of the CSV → MySQL → JSON ETL pipeline.

Shallow embedding of the three scripts:
  * `src/image-insert-csv-data/insert.py` — connection retry loop,
    `DataLoader.load_places`, `DataLoader.load_people`, `main`;
  * `src/image-compute-data/compute.py` —
    `PopulationAnalyzer.compute_population_by_country`,
    `JSONOutputWriter.write_json`, `main`;
  * `src/image-python/example.py` — script variant of the same pipeline.

The relational store is modelled as lists of rows with explicit
auto-increment counters; the SQL insert/join/group-by statements are
modelled by their relational-algebra meaning; the filesystem is an
association list from paths (component lists) to file contents plus a
set of created directories; Python's `json.dump(..., separators=(',',':'))`
is modelled character by character (`ensure_ascii=True` escaping).
-/

namespace ETL

/-! ## Data model: rows of the `places` and `people` tables -/

/-- A row of the `places` table: generated primary key plus the three
CSV columns (`insert.py` line 70-74, `compute.py` line 54). -/
structure Place where
  id : Nat
  city : String
  county : String
  country : String
deriving Repr, DecidableEq

/-- A row of the `people` table: generated primary key, the three text
columns, and the `place_of_birth_id` foreign key (`insert.py` line 95-100). -/
structure Person where
  id : Nat
  given_name : String
  family_name : String
  date_of_birth : String
  place_of_birth_id : Nat
deriving Repr, DecidableEq

/-- The database state: contents of both tables plus the MySQL
auto-increment counters that generate primary keys. -/
structure Store where
  places : List Place
  people : List Person
  nextPlaceId : Nat
  nextPersonId : Nat
deriving Repr, DecidableEq

/-! ## Aggregator (`compute.py`, `PopulationAnalyzer.compute_population_by_country`)

The query is
  SELECT places.country, count(people.id) AS population
  FROM people JOIN places ON people.place_of_birth_id = places.id
  GROUP BY places.country
and the result dict is `{row[0]: row[1] for row in rows}`. -/

/-- The places a person row joins with: inner-join condition
`people.place_of_birth_id = places.id`. -/
def matchingPlaces (s : Store) (p : Person) : List Place :=
  s.places.filter (fun pl => pl.id == p.place_of_birth_id)

/-- The `country` column of the joined relation, one element per
(person, place) pair produced by the inner join. -/
def joinCountries (s : Store) : List String :=
  s.people.flatMap (fun p => (matchingPlaces s p).map Place.country)

/-- `compute_population_by_country`: group the joined rows by country and
count the rows in each group; the Python dict has one entry per distinct
country appearing in the join. -/
def compute_population_by_country (s : Store) : List (String × Nat) :=
  (joinCountries s).dedup.map (fun c => (c, (joinCountries s).count c))

/-- Specification-side predicate: person `p` is associated (through the
join) with a place of country `c`. -/
def bornIn (s : Store) (c : String) (p : Person) : Bool :=
  s.places.any (fun pl => pl.id == p.place_of_birth_id && pl.country == c)

/-! ## CSV rows and the loader (`insert.py`, `DataLoader`) -/

/-- A data row of `places.csv` (header `city,county,country`). -/
structure PlaceRow where
  city : String
  county : String
  country : String
deriving Repr, DecidableEq

/-- A data row of `people.csv`
(header `given_name,family_name,date_of_birth,place_of_birth`). -/
structure PersonRow where
  given_name : String
  family_name : String
  date_of_birth : String
  place_of_birth : String
deriving Repr, DecidableEq

/-- Error taxonomy of the pipeline (names from the specification; in the
code they are the distinct raised exceptions: `storeError` is the wrapped
`SQLAlchemyError`, `referenceError` is the `ValueError("Place not found: …")`
of `load_people`, which the `except SQLAlchemyError` clause does not catch). -/
inductive LoadError where
  | ingestError
  | storeError
  | referenceError (city : String)
deriving Repr, DecidableEq

/-- The loader's in-memory `place_cache : Dict[str, int]`; newest binding
first, so assignment shadows an older binding for the same city. -/
def cacheSet (cache : List (String × Nat)) (k : String) (v : Nat) :
    List (String × Nat) :=
  (k, v) :: cache

/-- `dict.get`: the most recent binding for the key, if any. -/
def cacheGet (cache : List (String × Nat)) (k : String) : Option Nat :=
  match cache.find? (fun e => e.1 == k) with
  | some e => some e.2
  | none => none

/-- State threaded through a load step: the store (the database), the
`place_cache`, and the exception that ended the step, if any. -/
structure LoadState where
  store : Store
  cache : List (String × Nat)
  error : Option LoadError
deriving Repr, DecidableEq

/-- One `places_table.insert().values(...)` execution: appends a row with
the generated primary key and returns that key
(`result.inserted_primary_key[0]`). -/
def insertPlace (s : Store) (r : PlaceRow) : Nat × Store :=
  (s.nextPlaceId,
   { s with
      places := s.places ++ [⟨s.nextPlaceId, r.city, r.county, r.country⟩],
      nextPlaceId := s.nextPlaceId + 1 })

/-- One `people_table.insert().values(...)` execution. -/
def insertPerson (s : Store) (r : PersonRow) (pid : Nat) : Store :=
  { s with
     people := s.people ++
       [⟨s.nextPersonId, r.given_name, r.family_name, r.date_of_birth, pid⟩],
     nextPersonId := s.nextPersonId + 1 }

/-- The row loop of `load_places`. `insertOk i r` is the store's verdict on
inserting row `r` at index `i` (a failing insert raises `SQLAlchemyError`,
wrapped as `storeError`; the row is not inserted and the loop stops, but
rows already inserted stay committed — each statement autocommits). -/
def load_places_go (insertOk : Nat → PlaceRow → Bool) :
    List PlaceRow → Nat → LoadState → LoadState
  | [], _, st => st
  | r :: rs, i, st =>
    if insertOk i r then
      let (pid, store') := insertPlace st.store r
      load_places_go insertOk rs (i + 1)
        { st with store := store', cache := cacheSet st.cache r.city pid }
    else
      { st with error := some LoadError.storeError }

/-- `DataLoader.load_places` on the parsed CSV rows. -/
def load_places (insertOk : Nat → PlaceRow → Bool) (rows : List PlaceRow)
    (st : LoadState) : LoadState :=
  load_places_go insertOk rows 0 st

/-- The row loop of `load_people`: look the city up in the cache first
(`ValueError` — spec name `referenceError` — when absent, which stops the
loop before inserting that row), then insert with the cached id. -/
def load_people_go (insertOk : Nat → PersonRow → Bool) :
    List PersonRow → Nat → LoadState → LoadState
  | [], _, st => st
  | r :: rs, i, st =>
    match cacheGet st.cache r.place_of_birth with
    | none => { st with error := some (LoadError.referenceError r.place_of_birth) }
    | some pid =>
      if insertOk i r then
        load_people_go insertOk rs (i + 1)
          { st with store := insertPerson st.store r pid }
      else
        { st with error := some LoadError.storeError }

/-- `DataLoader.load_people` on the parsed CSV rows. -/
def load_people (insertOk : Nat → PersonRow → Bool) (rows : List PersonRow)
    (st : LoadState) : LoadState :=
  load_people_go insertOk rows 0 st

/-- Fresh database: empty tables, MySQL auto-increment counters at 1. -/
def emptyStore : Store := ⟨[], [], 1, 1⟩

/-- Loader state at the start of a run: empty store, empty `place_cache`. -/
def initState : LoadState := ⟨emptyStore, [], none⟩

/-- The insert oracle of a run in which every insert succeeds. -/
def allOk {α : Type} : Nat → α → Bool := fun _ _ => true

/-- `main`'s data-loading pipeline on a fresh database with no insert
failures: `load_places('/data/places.csv')` then
`load_people('/data/people.csv')`; an exception in the first step skips
the second. -/
def runPipeline (placeRows : List PlaceRow) (peopleRows : List PersonRow) :
    LoadState :=
  let st1 := load_places allOk placeRows initState
  match st1.error with
  | some _ => st1
  | none => load_people allOk peopleRows st1

/-! ## Specification-side helpers for the loader theorems -/

/-- The place rows that a run of successful inserts appends, with the
generated ids `n, n+1, …`. -/
def placesFrom (n : Nat) : List PlaceRow → List Place
  | [] => []
  | r :: rs => ⟨n, r.city, r.county, r.country⟩ :: placesFrom (n + 1) rs

/-- The cache after successfully inserting `rows` with ids `n, n+1, …`
starting from cache `c`. -/
def cacheAll (n : Nat) : List PlaceRow → List (String × Nat) → List (String × Nat)
  | [], c => c
  | r :: rs, c => cacheAll (n + 1) rs (cacheSet c r.city n)

/-- The person rows a run of successful, fully resolved inserts appends,
with generated ids `n, n+1, …` (the `getD 0` default is never used when
every row's city resolves). -/
def peopleFrom (cache : List (String × Nat)) (n : Nat) :
    List PersonRow → List Person
  | [] => []
  | r :: rs =>
    ⟨n, r.given_name, r.family_name, r.date_of_birth,
     (cacheGet cache r.place_of_birth).getD 0⟩ :: peopleFrom cache (n + 1) rs

/-- Index of the last row of a places CSV bearing a given city, if any. -/
def lastCityIdx : List PlaceRow → String → Option Nat
  | [], _ => none
  | r :: rs, city =>
    match lastCityIdx rs city with
    | some k => some (k + 1)
    | none => if r.city = city then some 0 else none

/-! ## Connection manager (`DatabaseConnectionManager.connect`)

`connect` runs `for attempt in range(max_retries)`, tries
`engine.connect()`, and on `OperationalError` either re-raises (wrapped,
message carrying `max_retries`) when `attempt == max_retries - 1`, or
sleeps `retry_delay` seconds and continues; if the loop body never runs
it falls through to `raise Exception("Unexpected connection failure")`. -/

/-- How a run of `connect` ends. `connectionError n` is the wrapped
`Exception(f"Could not connect to MySQL after {n} attempts")`;
`unexpectedFailure` the bare `Exception("Unexpected connection failure")`
after the `for` loop. -/
inductive ConnectOutcome where
  | connected
  | connectionError (attempts : Nat)
  | unexpectedFailure
deriving Repr, DecidableEq

/-- Observable trace of one `connect()` call: how many `engine.connect()`
attempts ran, how many `time.sleep(retry_delay)` calls ran, the total
seconds slept, and the outcome. -/
structure ConnectTrace where
  attempts : Nat
  sleeps : Nat
  totalSleep : Nat
  outcome : ConnectOutcome
deriving Repr, DecidableEq

/-- The retry loop from loop counter `attempt` on. `succeeds i` is the
environment's verdict on the `i`-th `engine.connect()` attempt (`false`
models the transient `OperationalError`). On entry to iteration `attempt`,
`attempt` attempts have already failed and each of them slept once. -/
def connectGo (succeeds : Nat → Bool) (maxRetries retryDelay : Nat)
    (attempt : Nat) : ConnectTrace :=
  if attempt < maxRetries then
    if succeeds attempt then
      ⟨attempt + 1, attempt, attempt * retryDelay, ConnectOutcome.connected⟩
    else if attempt = maxRetries - 1 then
      ⟨attempt + 1, attempt, attempt * retryDelay,
       ConnectOutcome.connectionError maxRetries⟩
    else
      connectGo succeeds maxRetries retryDelay (attempt + 1)
  else
    ⟨attempt, attempt, attempt * retryDelay, ConnectOutcome.unexpectedFailure⟩
termination_by maxRetries - attempt
decreasing_by omega

/-- `DatabaseConnectionManager.connect()` with the given environment. -/
def connect (succeeds : Nat → Bool) (maxRetries retryDelay : Nat) :
    ConnectTrace :=
  connectGo succeeds maxRetries retryDelay 0

/-! ## JSON writer (`compute.py`, `JSONOutputWriter.write_json`)

`write_json` runs `output_file.parent.mkdir(parents=True, exist_ok=True)`,
opens the path with mode `'w'` (truncating), and
`json.dump(data, json_file, separators=(',', ':'))`; the `except` clause
catches `(IOError, json.JSONDecodeError)` and wraps them. `json.dump` of a
non-serializable value raises `TypeError`, which that clause does not
catch. Serialization is modelled at the character level with Python's
default `ensure_ascii=True` escaping. -/

/-- A JSON-compatible Python scalar, or a value `json.dump` rejects. -/
inductive JVal where
  | jnull
  | jbool (b : Bool)
  | jint (n : Int)
  | jstr (s : String)
  | nonSerializable
deriving Repr, DecidableEq

/-- Lowercase-hex digits of `n` below `0x10000`, 4 characters. -/
def hex4 (n : Nat) : List Char :=
  [Nat.digitChar (n / 4096 % 16), Nat.digitChar (n / 256 % 16),
   Nat.digitChar (n / 16 % 16), Nat.digitChar (n % 16)]

/-- `json.dump`'s escaping of one character (`ensure_ascii=True`): the
named escapes of ESCAPE_DCT, `\uXXXX` for other control or non-ASCII
characters (a surrogate pair above the BMP), everything else verbatim. -/
def escCharL (c : Char) : List Char :=
  if c = '"' then ['\\', '"']
  else if c = '\\' then ['\\', '\\']
  else if c = '\x08' then ['\\', 'b']
  else if c = '\x0c' then ['\\', 'f']
  else if c = '\n' then ['\\', 'n']
  else if c = '\r' then ['\\', 'r']
  else if c = '\t' then ['\\', 't']
  else if c.toNat < 0x20 then '\\' :: 'u' :: hex4 c.toNat
  else if c.toNat < 0x7f then [c]
  else if c.toNat < 0x10000 then '\\' :: 'u' :: hex4 c.toNat
  else
    ('\\' :: 'u' :: hex4 (0xd800 + (c.toNat - 0x10000) / 0x400)) ++
    ('\\' :: 'u' :: hex4 (0xdc00 + (c.toNat - 0x10000) % 0x400))

/-- A JSON string literal: quoted, characters escaped. -/
def jsonStrL (s : String) : List Char :=
  '"' :: s.data.flatMap escCharL ++ ['"']

/-- Decimal digits of a natural number, as Python prints it. -/
def natDigits (n : Nat) : List Char :=
  if n < 10 then [Nat.digitChar n]
  else natDigits (n / 10) ++ [Nat.digitChar (n % 10)]
decreasing_by exact Nat.div_lt_self (by omega) (by omega)

/-- Python's decimal rendering of an int. -/
def intChars (n : Int) : List Char :=
  if n < 0 then '-' :: natDigits n.natAbs else natDigits n.toNat

/-- Serialization of one scalar value (`nonSerializable` raises before
producing output; its clause here is never reached on a success path). -/
def jsonValL : JVal → List Char
  | JVal.jnull => ['n', 'u', 'l', 'l']
  | JVal.jbool true => ['t', 'r', 'u', 'e']
  | JVal.jbool false => ['f', 'a', 'l', 's', 'e']
  | JVal.jint n => intChars n
  | JVal.jstr s => jsonStrL s
  | JVal.nonSerializable => []

/-- One `"key":value` member, with the `':'` item separator. -/
def jsonEntryL (e : String × JVal) : List Char :=
  jsonStrL e.1 ++ ':' :: jsonValL e.2

/-- The members of the object joined with the `','` separator. -/
def jsonEntriesL : List (String × JVal) → List Char
  | [] => []
  | [e] => jsonEntryL e
  | e :: e' :: rest => jsonEntryL e ++ ',' :: jsonEntriesL (e' :: rest)

/-- `json.dumps(dict, separators=(',', ':'))` — the exact bytes
`json.dump` writes for the mapping (insertion order preserved). -/
def jsonDump (d : List (String × JVal)) : String :=
  String.mk ('\x7b' :: jsonEntriesL d ++ ['\x7d'])

/-- Whether `json.dump` serializes every value (no `TypeError`). -/
def serializable (d : List (String × JVal)) : Bool :=
  d.all (fun e => !(e.2 == JVal.nonSerializable))

/-- The partial content flushed to the (truncated) file when `json.dump`
raises `TypeError` mid-stream: the members before the offending value. No
claim depends on these bytes; only that the write was interrupted. -/
def jsonDumpTrunc (d : List (String × JVal)) : String :=
  String.mk ('\x7b' ::
    jsonEntriesL (d.takeWhile (fun e => !(e.2 == JVal.nonSerializable))))

/-- Filesystem model: file contents per path (newest binding first, so a
write shadows the old contents) and the set of existing directories.
Paths are component lists. -/
structure FS where
  files : List (List String × String)
  dirs : List (List String)
deriving Repr, DecidableEq

/-- The contents at a path, if the file exists. -/
def FS.read (fs : FS) (p : List String) : Option String :=
  match fs.files.find? (fun e => e.1 == p) with
  | some e => some e.2
  | none => none

/-- `open(path, 'w')` followed by a full write: the path now holds exactly
`content`. -/
def FS.writeFile (fs : FS) (p : List String) (content : String) : FS :=
  { fs with files := (p, content) :: fs.files }

/-- All prefixes of a component list, shortest first. -/
def prefixesOf : List String → List (List String)
  | [] => [[]]
  | a :: rest => [] :: (prefixesOf rest).map (fun q => a :: q)

/-- `Path(p).parent.mkdir(parents=True, exist_ok=True)`: the parent and
all its ancestors now exist. -/
def mkdirParents (fs : FS) (p : List String) : FS :=
  { fs with dirs := prefixesOf p.dropLast ++ fs.dirs }

/-- How `write_json` ends: normal return, the wrapped
`Exception(f"Failed to write JSON to {output_path}")`, or the `TypeError`
from `json.dump` that the `except (IOError, json.JSONDecodeError)` clause
lets escape unwrapped. -/
inductive WriteOutcome where
  | ok
  | writeError
  | uncaughtTypeError
deriving Repr, DecidableEq

/-- `JSONOutputWriter.write_json`. `mkdirOk` and `ioOk` are the
environment's verdicts on the `mkdir` call and on opening/flushing the
file (`false` models the raised `IOError`, which is caught and wrapped). -/
def write_json (data : List (String × JVal)) (path : List String)
    (mkdirOk ioOk : Bool) (fs : FS) : WriteOutcome × FS :=
  if !mkdirOk then (WriteOutcome.writeError, fs)
  else
    let fs1 := mkdirParents fs path
    if !ioOk then (WriteOutcome.writeError, fs1)
    else if serializable data then
      (WriteOutcome.ok, fs1.writeFile path (jsonDump data))
    else
      (WriteOutcome.uncaughtTypeError, fs1.writeFile path (jsonDumpTrunc data))

/-! ## `main` of `insert.py` / `compute.py`: resource lifecycle

`main` wraps the run in `try/except/finally`; the `finally` block runs
`engine.dispose()` only under `if 'engine' in locals()`, and the local
`engine` is assigned only when `db_manager.connect()` returns — although
`connect()` creates the engine (`sqlalchemy.create_engine`) as its first
statement, before any connection attempt. -/

/-- Observable resource trace of one `main()` run. -/
structure MainTrace where
  engineCreated : Bool
  engineDisposed : Bool
  raised : Bool
deriving Repr, DecidableEq

/-- `main` control flow: connect, reflect metadata, load/compute steps
inside the connection context manager, then the `finally` block. Each
flag is the environment's verdict on that step. -/
def mainRun (connectOk reflectOk step1Ok step2Ok : Bool) : MainTrace :=
  if !connectOk then
    { engineCreated := true, engineDisposed := false, raised := true }
  else if !reflectOk then
    { engineCreated := true, engineDisposed := true, raised := true }
  else if !step1Ok then
    { engineCreated := true, engineDisposed := true, raised := true }
  else if !step2Ok then
    { engineCreated := true, engineDisposed := true, raised := true }
  else
    { engineCreated := true, engineDisposed := true, raised := false }

/-! ## Helper lemmas: the loader -/

/-- `load_places` with no insert failures appends one place per CSV row
(ids `nextPlaceId, nextPlaceId+1, …`), caches every row's id, and leaves
people and the error flag untouched. -/
theorem load_places_go_allOk (rows : List PlaceRow) (i : Nat) (st : LoadState) :
    load_places_go allOk rows i st =
      { store := { places := st.store.places ++ placesFrom st.store.nextPlaceId rows,
                   people := st.store.people,
                   nextPlaceId := st.store.nextPlaceId + rows.length,
                   nextPersonId := st.store.nextPersonId },
        cache := cacheAll st.store.nextPlaceId rows st.cache,
        error := st.error } := by
  induction rows generalizing i st with
  | nil => simp [load_places_go, placesFrom, cacheAll]
  | cons r rs ih =>
    simp only [load_places_go, allOk, if_true, insertPlace]
    rw [ih]
    simp [placesFrom, cacheAll, cacheSet]
    omega

/-- `load_places` when every insert before row `pre.length` succeeds and
that row's insert fails: the earlier rows stay committed (and cached), the
failing row and everything after it is not inserted, and the step ends
with the wrapped `SQLAlchemyError` (`storeError`). -/
theorem load_places_go_split (insertOk : Nat → PlaceRow → Bool)
    (pre : List PlaceRow) (bad : PlaceRow) (post : List PlaceRow)
    (i : Nat) (st : LoadState)
    (hpre : ∀ k (hk : k < pre.length), insertOk (i + k) (pre.get ⟨k, hk⟩) = true)
    (hbad : insertOk (i + pre.length) bad = false) :
    load_places_go insertOk (pre ++ bad :: post) i st =
      { store := { places := st.store.places ++ placesFrom st.store.nextPlaceId pre,
                   people := st.store.people,
                   nextPlaceId := st.store.nextPlaceId + pre.length,
                   nextPersonId := st.store.nextPersonId },
        cache := cacheAll st.store.nextPlaceId pre st.cache,
        error := some LoadError.storeError } := by
  induction pre generalizing i st with
  | nil =>
    simp only [List.nil_append, List.length_nil, Nat.add_zero] at hbad ⊢
    simp [load_places_go, hbad, placesFrom, cacheAll]
  | cons r rs ih =>
    have h0 : insertOk i r = true := by
      have := hpre 0 (by simp)
      simpa using this
    simp only [List.cons_append, load_places_go, h0, if_true, insertPlace,
      List.append_eq]
    rw [ih]
    · simp [placesFrom, cacheAll, cacheSet]
      omega
    · intro k hk
      have := hpre (k + 1) (by simpa using Nat.succ_lt_succ hk)
      simpa [Nat.add_assoc, Nat.add_comm 1 k] using this
    · simpa [Nat.add_assoc, Nat.add_comm 1 rs.length] using hbad

/-- `load_people` with no insert failures, when every row's city resolves
in the cache: appends one person per CSV row with the cached foreign key,
leaving places, the cache and the error flag untouched. -/
theorem load_people_go_allOk (rows : List PersonRow) (i : Nat) (st : LoadState)
    (hres : ∀ r ∈ rows, (cacheGet st.cache r.place_of_birth).isSome = true) :
    load_people_go allOk rows i st =
      { store := { places := st.store.places,
                   people := st.store.people ++
                     peopleFrom st.cache st.store.nextPersonId rows,
                   nextPlaceId := st.store.nextPlaceId,
                   nextPersonId := st.store.nextPersonId + rows.length },
        cache := st.cache,
        error := st.error } := by
  induction rows generalizing i st with
  | nil => simp [load_people_go, peopleFrom]
  | cons r rs ih =>
    obtain ⟨pid, hpid⟩ := Option.isSome_iff_exists.mp (hres r (by simp))
    simp only [load_people_go, hpid, allOk, if_true, insertPerson]
    rw [ih]
    · simp [peopleFrom, hpid]
      omega
    · intro r' hr'
      exact hres r' (by simp [hr'])

/-- If `load_people` (no insert failures) ends without an error, every
row's city was found in the cache. -/
theorem load_people_go_error_none (rows : List PersonRow) (i : Nat)
    (st : LoadState)
    (h : (load_people_go allOk rows i st).error = none) :
    ∀ r ∈ rows, (cacheGet st.cache r.place_of_birth).isSome = true := by
  induction rows generalizing i st with
  | nil => simp
  | cons r rs ih =>
    cases hc : cacheGet st.cache r.place_of_birth with
    | none => simp [load_people_go, hc] at h
    | some pid =>
      simp only [load_people_go, hc, allOk, if_true] at h
      intro r' hr'
      rcases List.mem_cons.mp hr' with rfl | hr'
      · simp [hc]
      · exact ih _ _ h r' hr'

/-- `load_people` (no insert failures) on a file whose first unresolvable
row is `bad`: the rows before it are inserted and stay inserted, `bad`
itself is not inserted, no row after it is processed, and the step ends
with the `ValueError("Place not found: …")` (`referenceError`). -/
theorem load_people_go_split (pre : List PersonRow) (bad : PersonRow)
    (post : List PersonRow) (i : Nat) (st : LoadState)
    (hpre : ∀ r ∈ pre, (cacheGet st.cache r.place_of_birth).isSome = true)
    (hbad : cacheGet st.cache bad.place_of_birth = none) :
    load_people_go allOk (pre ++ bad :: post) i st =
      { store := { places := st.store.places,
                   people := st.store.people ++
                     peopleFrom st.cache st.store.nextPersonId pre,
                   nextPlaceId := st.store.nextPlaceId,
                   nextPersonId := st.store.nextPersonId + pre.length },
        cache := st.cache,
        error := some (LoadError.referenceError bad.place_of_birth) } := by
  induction pre generalizing i st with
  | nil =>
    simp [load_people_go, hbad, peopleFrom]
  | cons r rs ih =>
    obtain ⟨pid, hpid⟩ := Option.isSome_iff_exists.mp (hpre r (by simp))
    simp only [List.cons_append, load_people_go, hpid, allOk, if_true,
      insertPerson, List.append_eq]
    rw [ih]
    · simp [peopleFrom, hpid]
      omega
    · intro r' hr'
      exact hpre r' (by simp [hr'])
    · exact hbad

/-! ## Helper lemmas: the city → id cache -/

/-- Looking a city up after a run of successful place inserts finds the id
generated for the last CSV row bearing that city (dict assignment
overwrites), or falls back to the prior cache contents. -/
theorem cacheGet_cacheAll (rows : List PlaceRow) (n : Nat)
    (c : List (String × Nat)) (city : String) :
    cacheGet (cacheAll n rows c) city =
      match lastCityIdx rows city with
      | some k => some (n + k)
      | none => cacheGet c city := by
  induction rows generalizing n c with
  | nil => simp [cacheAll, lastCityIdx]
  | cons r rs ih =>
    simp only [cacheAll, lastCityIdx]
    rw [ih]
    cases h : lastCityIdx rs city with
    | some k => simp [Nat.add_assoc, Nat.add_comm 1 k]
    | none =>
      by_cases hc : r.city = city
      · simp [hc, cacheGet, cacheSet]
      · have hbeq : (r.city == city) = false := beq_eq_false_iff_ne.mpr hc
        simp [cacheGet, cacheSet, List.find?, hbeq, hc]

/-- If the last row bearing `city` has index `k`, that row is a row of the
file. -/
theorem lastCityIdx_mem (rows : List PlaceRow) (city : String) (k : Nat)
    (h : lastCityIdx rows city = some k) :
    ∃ hk : k < rows.length, (rows.get ⟨k, hk⟩).city = city := by
  induction rows generalizing k with
  | nil => simp [lastCityIdx] at h
  | cons r rs ih =>
    simp only [lastCityIdx] at h
    cases h' : lastCityIdx rs city with
    | some k' =>
      rw [h'] at h
      obtain rfl : k = k' + 1 := by simpa using h.symm
      obtain ⟨hk', hcity⟩ := ih k' h'
      exact ⟨Nat.succ_lt_succ hk', hcity⟩
    | none =>
      rw [h'] at h
      by_cases hc : r.city = city
      · simp only [hc, if_true] at h
        obtain rfl : k = 0 := by simpa using h.symm
        exact ⟨Nat.succ_pos _, hc⟩
      · simp [hc] at h

/-- Conversely: an index that bears `city` and is not followed by any
later row bearing `city` is the index `lastCityIdx` computes. -/
theorem lastCityIdx_of_last (rows : List PlaceRow) (city : String) (k : Nat)
    (hk : k < rows.length) (hcity : (rows.get ⟨k, hk⟩).city = city)
    (hlast : ∀ j (hj : j < rows.length), k < j → (rows.get ⟨j, hj⟩).city ≠ city) :
    lastCityIdx rows city = some k := by
  induction rows generalizing k with
  | nil => exact absurd hk (by simp)
  | cons r rs ih =>
    cases k with
    | zero =>
      have hnone : lastCityIdx rs city = none := by
        cases h' : lastCityIdx rs city with
        | none => rfl
        | some k' =>
          obtain ⟨hk', hc'⟩ := lastCityIdx_mem rs city k' h'
          exact absurd hc'
            (hlast (k' + 1) (Nat.succ_lt_succ hk') (Nat.succ_pos _))
      simp only [lastCityIdx, hnone]
      simp only [List.get] at hcity
      simp [hcity]
    | succ j =>
      have hj : j < rs.length := Nat.lt_of_succ_lt_succ hk
      have hcity' : (rs.get ⟨j, hj⟩).city = city := hcity
      have hlast' : ∀ j' (hj' : j' < rs.length), j < j' →
          (rs.get ⟨j', hj'⟩).city ≠ city := by
        intro j' hj' hjj'
        exact hlast (j' + 1) (Nat.succ_lt_succ hj') (Nat.succ_lt_succ hjj')
      simp [lastCityIdx, ih j hj hcity' hlast']

/-! ## Helper lemmas: the rows a successful load appends -/

theorem placesFrom_length (n : Nat) (rows : List PlaceRow) :
    (placesFrom n rows).length = rows.length := by
  induction rows generalizing n with
  | nil => rfl
  | cons r rs ih => simp [placesFrom, ih]

theorem placesFrom_get (n : Nat) (rows : List PlaceRow) (k : Nat)
    (hk : k < rows.length) (hk' : k < (placesFrom n rows).length) :
    (placesFrom n rows).get ⟨k, hk'⟩ =
      ⟨n + k, (rows.get ⟨k, hk⟩).city, (rows.get ⟨k, hk⟩).county,
       (rows.get ⟨k, hk⟩).country⟩ := by
  induction rows generalizing n k with
  | nil => exact absurd hk (by simp)
  | cons r rs ih =>
    cases k with
    | zero => simp [placesFrom]
    | succ j =>
      have hj : j < rs.length := Nat.lt_of_succ_lt_succ hk
      have hj' : j < (placesFrom (n + 1) rs).length := by
        rw [placesFrom_length]; exact hj
      have := ih (n + 1) j hj hj'
      simp only [placesFrom, List.get, this]
      congr 1
      omega

/-- The rows appended by a successful place load, characterized by
membership: exactly one place per CSV row, carrying that row's columns
and the generated id. -/
theorem mem_placesFrom (pl : Place) (n : Nat) (rows : List PlaceRow) :
    pl ∈ placesFrom n rows ↔
      ∃ k, ∃ hk : k < rows.length,
        pl = ⟨n + k, (rows.get ⟨k, hk⟩).city, (rows.get ⟨k, hk⟩).county,
              (rows.get ⟨k, hk⟩).country⟩ := by
  constructor
  · intro hmem
    obtain ⟨⟨k, hk'⟩, hget⟩ := List.get_of_mem hmem
    have hk : k < rows.length := by
      have := hk'; rwa [placesFrom_length] at this
    exact ⟨k, hk, by rw [← hget, placesFrom_get n rows k hk]⟩
  · rintro ⟨k, hk, rfl⟩
    have hk' : k < (placesFrom n rows).length := by
      rw [placesFrom_length]; exact hk
    rw [← placesFrom_get n rows k hk hk']
    exact List.get_mem _ _ _

theorem peopleFrom_length (cache : List (String × Nat)) (n : Nat)
    (rows : List PersonRow) :
    (peopleFrom cache n rows).length = rows.length := by
  induction rows generalizing n with
  | nil => rfl
  | cons r rs ih => simp [peopleFrom, ih]

theorem peopleFrom_get (cache : List (String × Nat)) (n : Nat)
    (rows : List PersonRow) (k : Nat)
    (hk : k < rows.length) (hk' : k < (peopleFrom cache n rows).length) :
    (peopleFrom cache n rows).get ⟨k, hk'⟩ =
      ⟨n + k, (rows.get ⟨k, hk⟩).given_name, (rows.get ⟨k, hk⟩).family_name,
       (rows.get ⟨k, hk⟩).date_of_birth,
       (cacheGet cache (rows.get ⟨k, hk⟩).place_of_birth).getD 0⟩ := by
  induction rows generalizing n k with
  | nil => exact absurd hk (by simp)
  | cons r rs ih =>
    cases k with
    | zero => simp [peopleFrom]
    | succ j =>
      have hj : j < rs.length := Nat.lt_of_succ_lt_succ hk
      have hj' : j < (peopleFrom cache (n + 1) rs).length := by
        rw [peopleFrom_length]; exact hj
      have := ih (n + 1) j hj hj'
      simp only [peopleFrom, List.get, this]
      congr 1
      omega

/-! ## Helper lemmas: the aggregation query -/

/-- With distinct place ids (the primary-key invariant), the inner join
matches a person with at most one place, so the `country` column of that
person's joined rows counts `c` once when the person's place has country
`c` and zero times otherwise. -/
theorem count_countryOfMatching (l : List Place) (x : Nat) (c : String)
    (h : (l.map Place.id).Nodup) :
    ((l.filter (fun pl => pl.id == x)).map Place.country).count c =
      if l.any (fun pl => pl.id == x && pl.country == c) then 1 else 0 := by
  induction l with
  | nil => simp
  | cons pl l ih =>
    rw [List.map_cons, List.nodup_cons] at h
    obtain ⟨hnotin, hnd⟩ := h
    by_cases hid : pl.id = x
    · have hfilter : l.filter (fun q => q.id == x) = [] := by
        rw [List.filter_eq_nil_iff]
        intro q hq hqx
        rw [beq_iff_eq] at hqx
        refine hnotin ?_
        rw [hid, ← hqx]
        exact List.mem_map_of_mem Place.id hq
      have hany : l.any (fun q => q.id == x && q.country == c) = false := by
        rw [List.any_eq_false]
        intro q hq
        simp only [Bool.and_eq_true, beq_iff_eq, not_and]
        intro hqx _
        refine hnotin ?_
        rw [hid, ← hqx]
        exact List.mem_map_of_mem Place.id hq
      rw [List.filter_cons_of_pos (by simpa using hid), hfilter]
      simp [List.any_cons, hany, hid, List.count_singleton]
    · rw [List.filter_cons_of_neg (by simpa using hid)]
      have hpl : (pl.id == x && pl.country == c) = false := by
        simp [hid]
      simp [List.any_cons, hpl, ih hnd]

/-- With distinct place ids, the number of joined rows in country `c`
equals the number of person rows whose place has country `c`. -/
theorem count_joinCountries (s : Store) (ppl : List Person) (c : String)
    (h : (s.places.map Place.id).Nodup) :
    (ppl.flatMap (fun p => (matchingPlaces s p).map Place.country)).count c =
      (ppl.filter (bornIn s c)).length := by
  induction ppl with
  | nil => simp
  | cons p ppl ih =>
    rw [List.flatMap_cons, List.count_append, ih]
    rw [matchingPlaces, count_countryOfMatching s.places p.place_of_birth_id c h]
    cases hb : s.places.any
        (fun pl => pl.id == p.place_of_birth_id && pl.country == c) with
    | false => simp [List.filter_cons, bornIn, hb]
    | true =>
      simp [List.filter_cons, bornIn, hb]
      omega

/-! ## Helper lemmas: the connection retry loop -/

/-- When every attempt fails, the loop entered at iteration
`attempt < maxRetries` runs to the last iteration and raises the wrapped
error, having made `maxRetries` attempts and slept after all but the
last. -/
theorem connectGo_allFail (succeeds : Nat → Bool)
    (hfail : ∀ i, succeeds i = false) (maxRetries retryDelay : Nat)
    (d attempt : Nat) (hd : maxRetries - attempt = d)
    (h : attempt < maxRetries) :
    connectGo succeeds maxRetries retryDelay attempt =
      ⟨maxRetries, maxRetries - 1, (maxRetries - 1) * retryDelay,
       ConnectOutcome.connectionError maxRetries⟩ := by
  induction d generalizing attempt with
  | zero => omega
  | succ d ih =>
    rw [connectGo, if_pos h, hfail attempt]
    by_cases hlast : attempt = maxRetries - 1
    · simp only [hlast, if_pos rfl, Bool.false_eq_true, if_false]
      have h1 : maxRetries - 1 + 1 = maxRetries := by omega
      rw [h1]
      simp
    · simp only [Bool.false_eq_true, if_false, if_neg hlast]
      exact ih (attempt + 1) (by omega) (by omega)

/-! ## Helper lemmas: compactness of the serialized JSON

`json.dump(..., separators=(',', ':'))` emits no whitespace of its own;
whitespace can only come from inside the keys and string values. -/

/-- A value serializes without whitespace when any string it holds is
whitespace-free. -/
def valNoWS : JVal → Prop
  | JVal.jstr s => ∀ ch ∈ s.data, ch.isWhitespace = false
  | _ => True

theorem digitChar_not_ws : ∀ m < 16, (Nat.digitChar m).isWhitespace = false := by
  decide

theorem hex4_noWS (v : Nat) : ∀ ch ∈ hex4 v, ch.isWhitespace = false := by
  intro ch hch
  simp only [hex4, List.mem_cons, List.not_mem_nil, or_false] at hch
  rcases hch with rfl | rfl | rfl | rfl <;>
    exact digitChar_not_ws _ (Nat.mod_lt _ (by omega))

set_option maxHeartbeats 1000000 in
theorem escCharL_noWS (c : Char) (hc : c.isWhitespace = false) :
    ∀ ch ∈ escCharL c, ch.isWhitespace = false := by
  intro ch hch
  unfold escCharL at hch
  split_ifs at hch
  · simp only [List.mem_cons, List.not_mem_nil, or_false] at hch
    rcases hch with rfl | rfl <;> decide
  · simp only [List.mem_cons, List.not_mem_nil, or_false] at hch
    rcases hch with rfl | rfl <;> decide
  · simp only [List.mem_cons, List.not_mem_nil, or_false] at hch
    rcases hch with rfl | rfl <;> decide
  · simp only [List.mem_cons, List.not_mem_nil, or_false] at hch
    rcases hch with rfl | rfl <;> decide
  · simp only [List.mem_cons, List.not_mem_nil, or_false] at hch
    rcases hch with rfl | rfl <;> decide
  · simp only [List.mem_cons, List.not_mem_nil, or_false] at hch
    rcases hch with rfl | rfl <;> decide
  · simp only [List.mem_cons, List.not_mem_nil, or_false] at hch
    rcases hch with rfl | rfl <;> decide
  · simp only [List.mem_cons] at hch
    rcases hch with rfl | rfl | hch
    · decide
    · decide
    · exact hex4_noWS _ ch hch
  · simp only [List.mem_cons, List.not_mem_nil, or_false] at hch
    rcases hch with rfl
    exact hc
  · simp only [List.mem_cons] at hch
    rcases hch with rfl | rfl | hch
    · decide
    · decide
    · exact hex4_noWS _ ch hch
  · simp only [List.mem_append, List.mem_cons] at hch
    rcases hch with (rfl | rfl | hch) | (rfl | rfl | hch)
    · decide
    · decide
    · exact hex4_noWS _ ch hch
    · decide
    · decide
    · exact hex4_noWS _ ch hch

theorem natDigits_noWS (n : Nat) : ∀ ch ∈ natDigits n, ch.isWhitespace = false := by
  induction n using Nat.strong_induction_on with
  | _ n ih =>
    rw [natDigits]
    by_cases h : n < 10
    · rw [if_pos h]
      intro ch hch
      simp only [List.mem_cons, List.not_mem_nil, or_false] at hch
      subst hch
      exact digitChar_not_ws _ (by omega)
    · rw [if_neg h]
      intro ch hch
      rcases List.mem_append.mp hch with hch | hch
      · exact ih (n / 10) (Nat.div_lt_self (by omega) (by omega)) ch hch
      · simp only [List.mem_cons, List.not_mem_nil, or_false] at hch
        subst hch
        exact digitChar_not_ws _ (by omega)

theorem jsonStrL_noWS (s : String)
    (hs : ∀ ch ∈ s.data, ch.isWhitespace = false) :
    ∀ ch ∈ jsonStrL s, ch.isWhitespace = false := by
  intro ch hch
  simp only [jsonStrL, List.mem_cons, List.mem_append, List.not_mem_nil,
    or_false] at hch
  rcases hch with hch | rfl
  · rcases hch with rfl | hch
    · decide
    · obtain ⟨a, ha, hin⟩ := List.mem_flatMap.mp hch
      exact escCharL_noWS a (hs a ha) ch hin
  · decide

theorem jsonValL_noWS (v : JVal) (hv : valNoWS v) :
    ∀ ch ∈ jsonValL v, ch.isWhitespace = false := by
  intro ch hch
  cases v with
  | jnull =>
    simp only [jsonValL, List.mem_cons, List.not_mem_nil, or_false] at hch
    rcases hch with rfl | rfl | rfl | rfl <;> decide
  | jbool b =>
    cases b <;>
      simp only [jsonValL, List.mem_cons, List.not_mem_nil, or_false] at hch
    · rcases hch with rfl | rfl | rfl | rfl | rfl <;> decide
    · rcases hch with rfl | rfl | rfl | rfl <;> decide
  | jint n =>
    simp only [jsonValL, intChars] at hch
    by_cases hn : n < 0
    · rw [if_pos hn] at hch
      rcases List.mem_cons.mp hch with rfl | hch
      · decide
      · exact natDigits_noWS _ ch hch
    · rw [if_neg hn] at hch
      exact natDigits_noWS _ ch hch
  | jstr s => exact jsonStrL_noWS s hv ch hch
  | nonSerializable => simp [jsonValL] at hch

theorem jsonEntryL_noWS (e : String × JVal)
    (hk : ∀ ch ∈ e.1.data, ch.isWhitespace = false) (hv : valNoWS e.2) :
    ∀ ch ∈ jsonEntryL e, ch.isWhitespace = false := by
  intro ch hch
  simp only [jsonEntryL, List.mem_append, List.mem_cons] at hch
  rcases hch with hch | rfl | hch
  · exact jsonStrL_noWS _ hk ch hch
  · decide
  · exact jsonValL_noWS _ hv ch hch

theorem jsonEntriesL_noWS (d : List (String × JVal))
    (hd : ∀ e ∈ d, (∀ ch ∈ e.1.data, ch.isWhitespace = false) ∧ valNoWS e.2) :
    ∀ ch ∈ jsonEntriesL d, ch.isWhitespace = false := by
  induction d with
  | nil => simp [jsonEntriesL]
  | cons e rest ih =>
    cases rest with
    | nil =>
      intro ch hch
      rw [jsonEntriesL] at hch
      exact jsonEntryL_noWS e (hd e (by simp)).1 (hd e (by simp)).2 ch hch
    | cons e' rest' =>
      intro ch hch
      simp only [jsonEntriesL, List.mem_append, List.mem_cons] at hch
      rcases hch with hch | rfl | hch
      · exact jsonEntryL_noWS e (hd e (by simp)).1 (hd e (by simp)).2 ch hch
      · decide
      · exact ih (fun e'' he'' => hd e'' (by simp [he''])) ch
          (by simpa using hch)

theorem jsonDump_noWS (d : List (String × JVal))
    (hd : ∀ e ∈ d, (∀ ch ∈ e.1.data, ch.isWhitespace = false) ∧ valNoWS e.2) :
    ∀ ch ∈ (jsonDump d).data, ch.isWhitespace = false := by
  intro ch hch
  simp only [jsonDump, String.data, List.mem_cons, List.mem_append,
    List.not_mem_nil, or_false] at hch
  rcases hch with hch | rfl
  · rcases hch with rfl | hch
    · decide
    · exact jsonEntriesL_noWS d hd ch hch
  · decide

/-! ## Helper lemmas: the JSON writer's success path -/

/-- On the success path, the written file holds exactly the compact
serialization of the mapping (any previous contents are gone). -/
theorem write_json_ok_read (data : List (String × JVal)) (path : List String)
    (fs : FS) (h : serializable data = true) :
    ((write_json data path true true fs).2).read path = some (jsonDump data) := by
  simp [write_json, h, FS.writeFile, FS.read, List.find?]

/-- On the success path, every other path's contents are untouched. -/
theorem write_json_ok_read_other (data : List (String × JVal))
    (path q : List String) (fs : FS) (h : serializable data = true)
    (hq : q ≠ path) :
    ((write_json data path true true fs).2).read q = fs.read q := by
  have hbeq : (path == q) = false := beq_eq_false_iff_ne.mpr (Ne.symm hq)
  simp [write_json, h, FS.writeFile, FS.read, List.find?, hbeq, mkdirParents]

/-! ## The claims -/

/-- C3: a people CSV whose first unresolvable row is `bad` (every earlier
row's city is in the mapping, `bad`'s city is not) makes `load_people`
fail with the ReferenceError for that city at that row: the rows before
`bad` are inserted and remain inserted, no person row is inserted for
`bad`, and no row after it is processed. -/
theorem claim_C3 (st : LoadState) (pre : List PersonRow) (bad : PersonRow)
    (post : List PersonRow)
    (hpre : ∀ r ∈ pre, (cacheGet st.cache r.place_of_birth).isSome = true)
    (hbad : cacheGet st.cache bad.place_of_birth = none) :
    load_people allOk (pre ++ bad :: post) st =
      { store := { places := st.store.places,
                   people := st.store.people ++
                     peopleFrom st.cache st.store.nextPersonId pre,
                   nextPlaceId := st.store.nextPlaceId,
                   nextPersonId := st.store.nextPersonId + pre.length },
        cache := st.cache,
        error := some (LoadError.referenceError bad.place_of_birth) } := by
  rw [load_people]
  exact load_people_go_split pre bad post 0 st hpre hbad

def stC3 : LoadState :=
  load_places allOk [⟨"London", "Greater London", "UK"⟩] initState

def preC3 : List PersonRow := [⟨"Ada", "Lovelace", "1815-12-10", "London"⟩]

def badC3 : PersonRow := ⟨"Bob", "Builder", "1900-01-01", "Atlantis"⟩

def postC3 : List PersonRow := [⟨"Cy", "Young", "1867-03-29", "London"⟩]

theorem claim_C3_witness :
    (∀ r ∈ preC3, (cacheGet stC3.cache r.place_of_birth).isSome = true) ∧
    cacheGet stC3.cache badC3.place_of_birth = none ∧
    load_people allOk (preC3 ++ badC3 :: postC3) stC3 =
      { store := { places := stC3.store.places,
                   people := stC3.store.people ++
                     peopleFrom stC3.cache stC3.store.nextPersonId preC3,
                   nextPlaceId := stC3.store.nextPlaceId,
                   nextPersonId := stC3.store.nextPersonId + preC3.length },
        cache := stC3.cache,
        error := some (LoadError.referenceError badC3.place_of_birth) } :=
  ⟨by decide, by decide, claim_C3 stC3 preC3 badC3 postC3 (by decide) (by decide)⟩

/-- C5: a places CSV on which every insert before row `pre.length`
succeeds and that row's insert raises a store error makes `load_places`
fail with the wrapped StoreError, with every earlier row still committed
in the store (and cached); the failing row and the rows after it are not
inserted. -/
theorem claim_C5 (insertOk : Nat → PlaceRow → Bool) (pre : List PlaceRow)
    (bad : PlaceRow) (post : List PlaceRow) (st : LoadState)
    (hpre : ∀ k (hk : k < pre.length), insertOk k (pre.get ⟨k, hk⟩) = true)
    (hbad : insertOk pre.length bad = false) :
    load_places insertOk (pre ++ bad :: post) st =
      { store := { places := st.store.places ++
                     placesFrom st.store.nextPlaceId pre,
                   people := st.store.people,
                   nextPlaceId := st.store.nextPlaceId + pre.length,
                   nextPersonId := st.store.nextPersonId },
        cache := cacheAll st.store.nextPlaceId pre st.cache,
        error := some LoadError.storeError } := by
  rw [load_places]
  exact load_places_go_split insertOk pre bad post 0 st
    (by simpa using hpre) (by simpa using hbad)

def okC5 : Nat → PlaceRow → Bool := fun i _ => i == 0

def preC5 : List PlaceRow := [⟨"London", "Greater London", "UK"⟩]

def badC5 : PlaceRow := ⟨"Paris", "Ile-de-France", "FR"⟩

def postC5 : List PlaceRow := [⟨"Leeds", "West Yorkshire", "UK"⟩]

theorem claim_C5_witness :
    (∀ k (hk : k < preC5.length), okC5 k (preC5.get ⟨k, hk⟩) = true) ∧
    okC5 preC5.length badC5 = false ∧
    load_places okC5 (preC5 ++ badC5 :: postC5) initState =
      { store := { places := initState.store.places ++
                     placesFrom initState.store.nextPlaceId preC5,
                   people := initState.store.people,
                   nextPlaceId := initState.store.nextPlaceId + preC5.length,
                   nextPersonId := initState.store.nextPersonId },
        cache := cacheAll initState.store.nextPlaceId preC5 initState.cache,
        error := some LoadError.storeError } :=
  ⟨by decide, by decide,
   claim_C5 okC5 preC5 badC5 postC5 initState (by decide) (by decide)⟩

/-- C4 counterexample: with `max_retries = 0` every connection attempt
fails vacuously, yet `connect()` raises the bare
"Unexpected connection failure" after the loop, not a ConnectionError
carrying the attempt count (here 0) — the claim as stated fails. -/
theorem claim_C4_cex :
    (connect (fun _ => false) 0 5).outcome = ConnectOutcome.unexpectedFailure ∧
    (connect (fun _ => false) 0 5).outcome ≠ ConnectOutcome.connectionError 0 := by
  have h : connect (fun _ => false) 0 5 =
      ⟨0, 0, 0, ConnectOutcome.unexpectedFailure⟩ := by
    rw [connect, connectGo]
    norm_num
  rw [h]
  exact ⟨rfl, by decide⟩

/-- C4 (amended: `max_retries ≥ 1`): when every connection attempt fails
with the transient not-ready error, `connect()` makes exactly
`max_retries` attempts, sleeps `retry_delay` seconds after each failed
attempt except the last (total wait `(max_retries - 1) * retry_delay`),
then fails with the ConnectionError carrying the attempt count. -/
theorem claim_C4 (succeeds : Nat → Bool) (maxRetries retryDelay : Nat)
    (hfail : ∀ i, succeeds i = false) (hpos : 1 ≤ maxRetries) :
    connect succeeds maxRetries retryDelay =
      ⟨maxRetries, maxRetries - 1, (maxRetries - 1) * retryDelay,
       ConnectOutcome.connectionError maxRetries⟩ := by
  rw [connect]
  exact connectGo_allFail succeeds hfail maxRetries retryDelay maxRetries 0
    (by omega) (by omega)

theorem claim_C4_witness :
    (∀ i : Nat, (fun _ : Nat => false) i = false) ∧ 1 ≤ 10 ∧
    connect (fun _ => false) 10 5 =
      ⟨10, 9, 45, ConnectOutcome.connectionError 10⟩ :=
  ⟨fun _ => rfl, by decide,
   claim_C4 (fun _ => false) 10 5 (fun _ => rfl) (by decide)⟩

/-- C6 counterexample: a mapping holding a non-serializable value makes
`json.dump` raise `TypeError`, which the
`except (IOError, json.JSONDecodeError)` clause does not catch — the
call does not fail with the wrapped WriteError the claim requires. -/
theorem claim_C6_cex :
    (write_json [("population", JVal.nonSerializable)] ["data", "out.json"]
        true true ⟨[], []⟩).1 = WriteOutcome.uncaughtTypeError ∧
    (write_json [("population", JVal.nonSerializable)] ["data", "out.json"]
        true true ⟨[], []⟩).1 ≠ WriteOutcome.writeError := by
  constructor
  · rfl
  · intro hcontra
    exact absurd hcontra (by decide)

/-- C6 (amended): a directory-creation or file open/write failure is
caught and wrapped as the WriteError; a serialization failure instead
escapes as the uncaught `TypeError` (the except clause names
`json.JSONDecodeError`, which `json.dump` never raises). -/
theorem claim_C6 (data dataNS : List (String × JVal)) (path : List String)
    (fs : FS) (mkdirOk ioOk : Bool)
    (hio : mkdirOk = false ∨ ioOk = false)
    (hns : serializable dataNS = false) :
    (write_json data path mkdirOk ioOk fs).1 = WriteOutcome.writeError ∧
    (write_json dataNS path true true fs).1 = WriteOutcome.uncaughtTypeError := by
  constructor
  · rcases hio with rfl | rfl
    · simp [write_json]
    · cases mkdirOk <;> simp [write_json]
  · simp [write_json, hns]

theorem claim_C6_witness :
    ((false : Bool) = false ∨ (true : Bool) = false) ∧
    serializable [("population", JVal.nonSerializable)] = false ∧
    ((write_json [("UK", JVal.jint 1)] ["data", "out.json"] false true
        ⟨[], []⟩).1 = WriteOutcome.writeError ∧
     (write_json [("population", JVal.nonSerializable)] ["data", "out.json"]
        true true ⟨[], []⟩).1 = WriteOutcome.uncaughtTypeError) :=
  ⟨Or.inl rfl, by decide,
   claim_C6 [("UK", JVal.jint 1)] [("population", JVal.nonSerializable)]
     ["data", "out.json"] ⟨[], []⟩ false true (Or.inl rfl) (by decide)⟩

/-- C7: writing the same serializable mapping twice to the same path
yields byte-identical contents: after each call the file holds exactly
`jsonDump data`, a deterministic function of the mapping alone,
regardless of what the file held before. -/
theorem claim_C7 (data : List (String × JVal)) (path : List String) (fs : FS)
    (h : serializable data = true) :
    ((write_json data path true true fs).2).read path = some (jsonDump data) ∧
    ((write_json data path true true
        ((write_json data path true true fs).2)).2).read path
      = some (jsonDump data) ∧
    ((write_json data path true true fs).2).read path =
      ((write_json data path true true
        ((write_json data path true true fs).2)).2).read path := by
  refine ⟨write_json_ok_read data path fs h, write_json_ok_read data path _ h, ?_⟩
  rw [write_json_ok_read data path fs h, write_json_ok_read data path _ h]

theorem claim_C7_witness :
    serializable [("UK", JVal.jint 1)] = true ∧
    (((write_json [("UK", JVal.jint 1)] ["data", "out.json"] true true
        ⟨[(["data", "out.json"], "stale")], []⟩).2).read ["data", "out.json"]
      = some (jsonDump [("UK", JVal.jint 1)]) ∧
     ((write_json [("UK", JVal.jint 1)] ["data", "out.json"] true true
        ((write_json [("UK", JVal.jint 1)] ["data", "out.json"] true true
          ⟨[(["data", "out.json"], "stale")], []⟩).2)).2).read ["data", "out.json"]
      = some (jsonDump [("UK", JVal.jint 1)]) ∧
     ((write_json [("UK", JVal.jint 1)] ["data", "out.json"] true true
        ⟨[(["data", "out.json"], "stale")], []⟩).2).read ["data", "out.json"] =
      ((write_json [("UK", JVal.jint 1)] ["data", "out.json"] true true
        ((write_json [("UK", JVal.jint 1)] ["data", "out.json"] true true
          ⟨[(["data", "out.json"], "stale")], []⟩).2)).2).read ["data", "out.json"]) :=
  ⟨by decide,
   claim_C7 [("UK", JVal.jint 1)] ["data", "out.json"]
     ⟨[(["data", "out.json"], "stale")], []⟩ (by decide)⟩

/-- C8: on a serializable mapping, `write_json` succeeds, the path then
holds exactly the compact serialization (any previous contents wholly
overwritten), every other path is untouched, every ancestor directory of
the path exists afterwards, and the serialization contains no whitespace
unless a key or string value contains some. -/
theorem claim_C8 (data : List (String × JVal)) (path : List String) (fs : FS)
    (h : serializable data = true) :
    (write_json data path true true fs).1 = WriteOutcome.ok ∧
    ((write_json data path true true fs).2).read path = some (jsonDump data) ∧
    (∀ q, q ≠ path → ((write_json data path true true fs).2).read q = fs.read q) ∧
    (∀ q ∈ prefixesOf path.dropLast, q ∈ ((write_json data path true true fs).2).dirs) ∧
    ((∀ e ∈ data, (∀ ch ∈ e.1.data, ch.isWhitespace = false) ∧ valNoWS e.2) →
      ∀ ch ∈ (jsonDump data).data, ch.isWhitespace = false) := by
  refine ⟨?_, write_json_ok_read data path fs h, ?_, ?_, jsonDump_noWS data⟩
  · simp [write_json, h]
  · intro q hq
    exact write_json_ok_read_other data path q fs h hq
  · intro q hq
    simp only [write_json, Bool.not_true, Bool.false_eq_true, if_false, h,
      if_true, FS.writeFile, mkdirParents]
    exact List.mem_append_left _ hq

theorem claim_C8_witness :
    serializable [("UK", JVal.jint 1)] = true ∧
    ((write_json [("UK", JVal.jint 1)] ["data", "out.json"] true true
        ⟨[], []⟩).1 = WriteOutcome.ok ∧
     ((write_json [("UK", JVal.jint 1)] ["data", "out.json"] true true
        ⟨[], []⟩).2).read ["data", "out.json"]
        = some (jsonDump [("UK", JVal.jint 1)]) ∧
     (∀ q, q ≠ ["data", "out.json"] →
       ((write_json [("UK", JVal.jint 1)] ["data", "out.json"] true true
          ⟨[], []⟩).2).read q = (⟨[], []⟩ : FS).read q) ∧
     (∀ q ∈ prefixesOf (["data", "out.json"] : List String).dropLast,
       q ∈ ((write_json [("UK", JVal.jint 1)] ["data", "out.json"] true true
          ⟨[], []⟩).2).dirs) ∧
     ((∀ e ∈ [("UK", JVal.jint 1)],
        (∀ ch ∈ e.1.data, ch.isWhitespace = false) ∧ valNoWS e.2) →
       ∀ ch ∈ (jsonDump [("UK", JVal.jint 1)]).data, ch.isWhitespace = false)) :=
  ⟨by decide,
   claim_C8 [("UK", JVal.jint 1)] ["data", "out.json"] ⟨[], []⟩ (by decide)⟩

/-- C9 counterexample: when `connect()` fails, the engine it created
(`create_engine` runs before any attempt) is never disposed — the
`finally` block's `if 'engine' in locals()` guard skips `dispose()`
because the local was never assigned. -/
theorem claim_C9_cex :
    (mainRun false true true true).engineCreated = true ∧
    (mainRun false true true true).engineDisposed = false := by
  decide

/-- C9 (amended): the engine is disposed before `main` exits on exactly
the runs in which `connect()` succeeded — including every later failure
(reflection or either pipeline step); on a run whose `connect()` failed,
the engine created inside `connect()` is not disposed. -/
theorem claim_C9 (connectOk reflectOk step1Ok step2Ok : Bool) :
    (mainRun connectOk reflectOk step1Ok step2Ok).engineCreated = true ∧
    (mainRun connectOk reflectOk step1Ok step2Ok).engineDisposed = connectOk := by
  cases connectOk <;> cases reflectOk <;> cases step1Ok <;> cases step2Ok <;>
    exact ⟨rfl, rfl⟩

/-- Distinct cities let an index be recovered from its row's city. -/
theorem nodup_city_get_inj (rows : List PlaceRow)
    (h : (rows.map PlaceRow.city).Nodup) (j k : Nat)
    (hj : j < rows.length) (hk : k < rows.length)
    (heq : (rows.get ⟨j, hj⟩).city = (rows.get ⟨k, hk⟩).city) : j = k := by
  have hj' : j < (rows.map PlaceRow.city).length := by
    rw [List.length_map]; exact hj
  have hk' : k < (rows.map PlaceRow.city).length := by
    rw [List.length_map]; exact hk
  have hmap : (rows.map PlaceRow.city).get ⟨j, hj'⟩ =
      (rows.map PlaceRow.city).get ⟨k, hk'⟩ := by
    simp only [List.get_eq_getElem, List.getElem_map]
    exact heq
  have := (List.Nodup.get_inj_iff h).mp hmap
  simpa using this

/-- C1: on any store state satisfying the primary-key invariant (distinct
place ids), `compute_population_by_country` returns a mapping with
exactly one entry per distinct country that some person row is joined to
through `place_of_birth_id = places.id`; each entry's value is the number
of person rows whose `place_of_birth_id` equals the id of a place with
that country; countries with no associated person are absent
(never present with value zero). -/
theorem claim_C1 (s : Store) (h : (s.places.map Place.id).Nodup) :
    ((compute_population_by_country s).map Prod.fst).Nodup ∧
    (∀ c n, (c, n) ∈ compute_population_by_country s →
        n = (s.people.filter (bornIn s c)).length ∧ 0 < n) ∧
    (∀ c, (∃ n, (c, n) ∈ compute_population_by_country s) ↔
        ∃ p ∈ s.people, bornIn s c p = true) := by
  have hcount : ∀ c, (joinCountries s).count c =
      (s.people.filter (bornIn s c)).length := fun c =>
    count_joinCountries s s.people c h
  refine ⟨?_, ?_, ?_⟩
  · rw [compute_population_by_country, List.map_map]
    have hcomp : (Prod.fst ∘ fun c => (c, (joinCountries s).count c)) = id := rfl
    rw [hcomp, List.map_id]
    exact List.nodup_dedup _
  · intro c n hmem
    rw [compute_population_by_country] at hmem
    obtain ⟨a, ha, heq⟩ := List.mem_map.mp hmem
    rw [Prod.mk.injEq] at heq
    obtain ⟨rfl, rfl⟩ := heq
    refine ⟨hcount a, ?_⟩
    exact List.count_pos_iff.mpr (List.mem_dedup.mp ha)
  · intro c
    constructor
    · rintro ⟨n, hmem⟩
      rw [compute_population_by_country] at hmem
      obtain ⟨a, ha, heq⟩ := List.mem_map.mp hmem
      rw [Prod.mk.injEq] at heq
      obtain ⟨rfl, -⟩ := heq
      have hpos : 0 < (joinCountries s).count a :=
        List.count_pos_iff.mpr (List.mem_dedup.mp ha)
      rw [hcount a] at hpos
      obtain ⟨p, hp⟩ := List.exists_mem_of_length_pos hpos
      rw [List.mem_filter] at hp
      exact ⟨p, hp.1, hp.2⟩
    · rintro ⟨p, hp, hb⟩
      have hmemf : p ∈ s.people.filter (bornIn s c) :=
        List.mem_filter.mpr ⟨hp, hb⟩
      have hpos : 0 < (s.people.filter (bornIn s c)).length :=
        List.length_pos_of_mem hmemf
      rw [← hcount c] at hpos
      have hcmem : c ∈ joinCountries s := List.count_pos_iff.mp hpos
      refine ⟨(joinCountries s).count c, ?_⟩
      rw [compute_population_by_country]
      exact List.mem_map_of_mem _ (List.mem_dedup.mpr hcmem)

def storeC1 : Store :=
  { places := [⟨1, "London", "Greater London", "UK"⟩,
               ⟨2, "Paris", "Ile-de-France", "FR"⟩,
               ⟨3, "Leeds", "West Yorkshire", "UK"⟩],
    people := [⟨1, "Ada", "Lovelace", "1815-12-10", 1⟩,
               ⟨2, "Cy", "Young", "1867-03-29", 3⟩,
               ⟨3, "Blaise", "Pascal", "1623-06-19", 2⟩,
               ⟨4, "Orphan", "Row", "1900-01-01", 99⟩],
    nextPlaceId := 4, nextPersonId := 5 }

theorem claim_C1_witness :
    (storeC1.places.map Place.id).Nodup ∧
    (((compute_population_by_country storeC1).map Prod.fst).Nodup ∧
     (∀ c n, (c, n) ∈ compute_population_by_country storeC1 →
        n = (storeC1.people.filter (bornIn storeC1 c)).length ∧ 0 < n) ∧
     (∀ c, (∃ n, (c, n) ∈ compute_population_by_country storeC1) ↔
        ∃ p ∈ storeC1.people, bornIn storeC1 c p = true)) :=
  ⟨by decide, claim_C1 storeC1 (by decide)⟩

/-- C2: for CSV inputs on which `load_places` then `load_people` run
without error (cities in the places CSV pairwise distinct), one person
row is inserted per people CSV row, and each one's `place_of_birth_id` is
the generated id of the unique place row whose city equals that CSV row's
`place_of_birth` field. -/
theorem claim_C2 (placeRows : List PlaceRow) (peopleRows : List PersonRow)
    (hcities : (placeRows.map PlaceRow.city).Nodup)
    (hok : (runPipeline placeRows peopleRows).error = none) :
    (runPipeline placeRows peopleRows).store.people.length = peopleRows.length ∧
    ∀ k (hk : k < peopleRows.length)
      (hk' : k < (runPipeline placeRows peopleRows).store.people.length),
      ∃ pl ∈ (runPipeline placeRows peopleRows).store.places,
        pl.city = (peopleRows.get ⟨k, hk⟩).place_of_birth ∧
        ((runPipeline placeRows peopleRows).store.people.get
            ⟨k, hk'⟩).place_of_birth_id = pl.id ∧
        ∀ pl' ∈ (runPipeline placeRows peopleRows).store.places,
          pl'.city = (peopleRows.get ⟨k, hk⟩).place_of_birth → pl' = pl := by
  have hst1 : load_places allOk placeRows initState =
      { store := { places := placesFrom 1 placeRows, people := [],
                   nextPlaceId := 1 + placeRows.length, nextPersonId := 1 },
        cache := cacheAll 1 placeRows [], error := none } := by
    rw [load_places, load_places_go_allOk]
    rfl
  have hrun : runPipeline placeRows peopleRows =
      load_people allOk peopleRows
        { store := { places := placesFrom 1 placeRows, people := [],
                     nextPlaceId := 1 + placeRows.length, nextPersonId := 1 },
          cache := cacheAll 1 placeRows [], error := none } := by
    rw [runPipeline, hst1]
  rw [hrun] at hok ⊢
  rw [load_people] at hok ⊢
  have hres := load_people_go_error_none peopleRows 0 _ hok
  rw [load_people_go_allOk _ _ _ hres]
  dsimp only at hres ⊢
  simp only [List.nil_append]
  refine ⟨peopleFrom_length _ _ _, ?_⟩
  intro k hk hk'
  have hr := hres _ (List.get_mem peopleRows k hk)
  rw [cacheGet_cacheAll] at hr
  cases hlastidx : lastCityIdx placeRows ((peopleRows.get ⟨k, hk⟩).place_of_birth) with
  | none =>
    rw [hlastidx] at hr
    simp [cacheGet] at hr
  | some j =>
    obtain ⟨hjlen, hjcity⟩ := lastCityIdx_mem _ _ _ hlastidx
    have hjlen' : j < (placesFrom 1 placeRows).length := by
      rw [placesFrom_length]; exact hjlen
    refine ⟨(placesFrom 1 placeRows).get ⟨j, hjlen'⟩,
      List.get_mem _ _ _, ?_, ?_, ?_⟩
    · rw [placesFrom_get 1 placeRows j hjlen hjlen']
      exact hjcity
    · rw [peopleFrom_get (cacheAll 1 placeRows []) 1 peopleRows k hk hk']
      rw [placesFrom_get 1 placeRows j hjlen hjlen']
      dsimp only
      rw [cacheGet_cacheAll, hlastidx]
      rfl
    · intro pl' hpl' hcity'
      obtain ⟨k2, hk2, rfl⟩ := (mem_placesFrom pl' 1 placeRows).mp hpl'
      have heqc : (placeRows.get ⟨k2, hk2⟩).city =
          (placeRows.get ⟨j, hjlen⟩).city := by
        rw [hjcity]
        exact hcity'
      have hk2j : k2 = j := nodup_city_get_inj placeRows hcities k2 j hk2 hjlen heqc
      subst hk2j
      rw [placesFrom_get 1 placeRows k2 hk2 hjlen']

def placeRowsC2 : List PlaceRow :=
  [⟨"London", "Greater London", "UK"⟩, ⟨"Paris", "Ile-de-France", "FR"⟩]

def peopleRowsC2 : List PersonRow :=
  [⟨"Ada", "Lovelace", "1815-12-10", "London"⟩,
   ⟨"Blaise", "Pascal", "1623-06-19", "Paris"⟩,
   ⟨"Marie", "Curie", "1867-11-07", "Paris"⟩]

theorem claim_C2_witness :
    (placeRowsC2.map PlaceRow.city).Nodup ∧
    (runPipeline placeRowsC2 peopleRowsC2).error = none ∧
    ((runPipeline placeRowsC2 peopleRowsC2).store.people.length
        = peopleRowsC2.length ∧
     ∀ k (hk : k < peopleRowsC2.length)
       (hk' : k < (runPipeline placeRowsC2 peopleRowsC2).store.people.length),
       ∃ pl ∈ (runPipeline placeRowsC2 peopleRowsC2).store.places,
         pl.city = (peopleRowsC2.get ⟨k, hk⟩).place_of_birth ∧
         ((runPipeline placeRowsC2 peopleRowsC2).store.people.get
             ⟨k, hk'⟩).place_of_birth_id = pl.id ∧
         ∀ pl' ∈ (runPipeline placeRowsC2 peopleRowsC2).store.places,
           pl'.city = (peopleRowsC2.get ⟨k, hk⟩).place_of_birth → pl' = pl) :=
  ⟨by decide, by decide, claim_C2 placeRowsC2 peopleRowsC2 (by decide) (by decide)⟩

/-- C10: when the same city appears in several rows of the places CSV,
`load_places` still inserts one place row per CSV row, and the cache maps
that city to the generated id of the last row bearing it (dict assignment
overwrites); every person subsequently loaded with that `place_of_birth`
is linked to that last-inserted place. -/
theorem claim_C10 (placeRows : List PlaceRow) (city : String) (k : Nat)
    (hk : k < placeRows.length)
    (hcity : (placeRows.get ⟨k, hk⟩).city = city)
    (hlast : ∀ j (hj : j < placeRows.length), k < j →
        (placeRows.get ⟨j, hj⟩).city ≠ city) :
    (load_places allOk placeRows initState).store.places.length
      = placeRows.length ∧
    cacheGet (load_places allOk placeRows initState).cache city
      = some (1 + k) ∧
    (∃ hk2 : k < (load_places allOk placeRows initState).store.places.length,
       ((load_places allOk placeRows initState).store.places.get
           ⟨k, hk2⟩).city = city ∧
       ((load_places allOk placeRows initState).store.places.get
           ⟨k, hk2⟩).id = 1 + k) ∧
    ∀ peopleRows j (hj : j < peopleRows.length)
      (hj' : j < (load_people allOk peopleRows
          (load_places allOk placeRows initState)).store.people.length),
      (peopleRows.get ⟨j, hj⟩).place_of_birth = city →
      (load_people allOk peopleRows
          (load_places allOk placeRows initState)).error = none →
      ((load_people allOk peopleRows
          (load_places allOk placeRows initState)).store.people.get
          ⟨j, hj'⟩).place_of_birth_id = 1 + k := by
  have hst1 : load_places allOk placeRows initState =
      { store := { places := placesFrom 1 placeRows, people := [],
                   nextPlaceId := 1 + placeRows.length, nextPersonId := 1 },
        cache := cacheAll 1 placeRows [], error := none } := by
    rw [load_places, load_places_go_allOk]
    rfl
  have hidx : lastCityIdx placeRows city = some k :=
    lastCityIdx_of_last placeRows city k hk hcity hlast
  rw [hst1]
  dsimp only
  have hk2 : k < (placesFrom 1 placeRows).length := by
    rw [placesFrom_length]; exact hk
  refine ⟨placesFrom_length _ _, ?_, ⟨hk2, ?_, ?_⟩, ?_⟩
  · rw [cacheGet_cacheAll, hidx]
  · rw [placesFrom_get 1 placeRows k hk hk2]
    exact hcity
  · rw [placesFrom_get 1 placeRows k hk hk2]
  · intro peopleRows j hj hj' hpob herr
    rw [load_people] at herr
    have hres := load_people_go_error_none peopleRows 0 _ herr
    have hpeq : (load_people allOk peopleRows
        { store := { places := placesFrom 1 placeRows, people := [],
                     nextPlaceId := 1 + placeRows.length, nextPersonId := 1 },
          cache := cacheAll 1 placeRows [], error := none }).store.people =
        peopleFrom (cacheAll 1 placeRows []) 1 peopleRows := by
      rw [load_people, load_people_go_allOk _ _ _ hres]
      simp
    rw [List.get_of_eq hpeq ⟨j, hj'⟩]
    rw [peopleFrom_get (cacheAll 1 placeRows []) 1 peopleRows j hj]
    dsimp only
    rw [hpob, cacheGet_cacheAll, hidx]
    rfl

def placeRowsC10 : List PlaceRow :=
  [⟨"London", "Greater London", "UK"⟩,
   ⟨"London", "Ontario", "CA"⟩,
   ⟨"Paris", "Ile-de-France", "FR"⟩]

theorem claim_C10_witness :
    (∃ hkk : 1 < placeRowsC10.length,
       (placeRowsC10.get ⟨1, hkk⟩).city = "London") ∧
    (∀ j (hj : j < placeRowsC10.length), 1 < j →
       (placeRowsC10.get ⟨j, hj⟩).city ≠ "London") ∧
    ((load_places allOk placeRowsC10 initState).store.places.length
        = placeRowsC10.length ∧
     cacheGet (load_places allOk placeRowsC10 initState).cache "London"
        = some (1 + 1) ∧
     (∃ hk2 : 1 < (load_places allOk placeRowsC10 initState).store.places.length,
        ((load_places allOk placeRowsC10 initState).store.places.get
            ⟨1, hk2⟩).city = "London" ∧
        ((load_places allOk placeRowsC10 initState).store.places.get
            ⟨1, hk2⟩).id = 1 + 1) ∧
     ∀ peopleRows j (hj : j < peopleRows.length)
       (hj' : j < (load_people allOk peopleRows
           (load_places allOk placeRowsC10 initState)).store.people.length),
       (peopleRows.get ⟨j, hj⟩).place_of_birth = "London" →
       (load_people allOk peopleRows
           (load_places allOk placeRowsC10 initState)).error = none →
       ((load_people allOk peopleRows
           (load_places allOk placeRowsC10 initState)).store.people.get
           ⟨j, hj'⟩).place_of_birth_id = 1 + 1) :=
  ⟨⟨by decide, by decide⟩, by decide,
   claim_C10 placeRowsC10 "London" 1 (by decide) (by decide) (by decide)⟩

end ETL
